import Mathlib

/-!
Shallow embedding of the Issue-Tracker reconciliation engine
(src/sync-project-items.js, second variant with pagination, plus the
src/unnamed/part_000 variant of the field projector) and proofs about it.

Modelling conventions:
- JavaScript string truthiness (null / undefined / empty string are falsy)
  is modelled by Option String together with jsOrS.
- Epoch milliseconds are modelled as Int (Nat where only nonnegative
  instants occur); the source renders Date values with toISOString, which
  is modelled by toISOString below via the civil-from-days algorithm.
- The destination store is a list of rows; supabase single() returning the
  PGRST116 not-found code versus other errors is modelled by ReadResult.
- A thrown TypeError (item.content.assignees on null content) is modelled
  by Except.error JsError.typeError.
-/

namespace IssueTracker

/-- JavaScript `x || d` for an optional string value: null, undefined and
the empty string all fall through to the default. -/
def jsOrS : Option String → String → String
  | some s, d => if s = "" then d else s
  | none, d => d

/-- The natural key used against the issue_tracker table: the content's
issue number, or the literal string "N/A" when content is absent. -/
inductive IssueKey
  | num (n : Nat)
  | str (s : String)
deriving DecidableEq

/-- One fieldValues node of the GraphQL response: an optional field name
and at most one payload among text, single-select name, date. -/
structure FieldValue where
  fieldName : Option String
  text : Option String
  name : Option String
  date : Option String
deriving DecidableEq

/-- One assignee node (a login). -/
structure Assignee where
  login : String
deriving DecidableEq

/-- The content of a project item when it is an Issue.  createdAtIST is
the field added by fetchAllProjectItems from content.createdAt via the
IST shift; absent when createdAt was absent. -/
structure Content where
  title : String
  number : Nat
  url : String
  createdAtIST : Option String
  assignees : Option (List Assignee)
deriving DecidableEq

/-- One SourceItem: opaque id, field-value list, optional content. -/
structure Item where
  id : String
  fieldValues : List FieldValue
  content : Option Content
deriving DecidableEq

/-- find over fieldValues.nodes matching field.field?.name against a
label with JavaScript strict equality. -/
def findFV (nodes : List FieldValue) (label : String) : Option FieldValue :=
  nodes.find? (fun fv => fv.fieldName == some label)

/-- nodes.find(f => f.field?.name === label)?.text || dflt -/
def pickText (nodes : List FieldValue) (label dflt : String) : String :=
  jsOrS ((findFV nodes label).bind (·.text)) dflt

/-- nodes.find(f => f.field?.name === label)?.name || dflt -/
def pickName (nodes : List FieldValue) (label dflt : String) : String :=
  jsOrS ((findFV nodes label).bind (·.name)) dflt

/-- The runtime error thrown by the sync loop. -/
inductive JsError
  | typeError
deriving DecidableEq

/-- item.content ? item.content.number : "N/A" -/
def issueNumberOf (item : Item) : IssueKey :=
  match item.content with
  | some c => .num c.number
  | none => .str "N/A"

/-- The canonical record computed per item at the top of the sync loop
(variant 2, lines 352-366). -/
structure Canon where
  issueNumber : IssueKey
  issueUrl : String
  createdAtIST : String
  issueTitle : String
  priority : String
  issueType : String
  createdBy : String
  appName : String
  buildType : String
  buildVersion : String
  deviceType : String
  status : String
  assignees : List String
deriving DecidableEq

/-- Lines 352-366 of the sync loop.  The assignees line reads
item.content.assignees without a guard, so a null content throws a
TypeError there; everything before it is null-safe. -/
def projectItem (item : Item) : Except JsError Canon :=
  let issueNumber := issueNumberOf item
  let issueUrl := match item.content with
    | some c => c.url
    | none => "N/A"
  let createdAtIST := jsOrS (item.content.bind (·.createdAtIST)) "Unknown"
  let issueTitle := pickText item.fieldValues "Title" "No Title"
  let priority := pickName item.fieldValues "Priority" "No Priority"
  let issueType := pickName item.fieldValues "Issue Type" "No Issue Type"
  let createdBy := pickText item.fieldValues "Created by" "Unknown"
  let appName := pickName item.fieldValues "App Name" "N/A"
  let buildType := pickName item.fieldValues "Build Type" "N/A"
  let buildVersion := pickText item.fieldValues "Build Version" "N/A"
  let deviceType := pickName item.fieldValues "Device Type" "N/A"
  let status := pickName item.fieldValues "Status" "No Status"
  match item.content with
  | none => .error .typeError
  | some c =>
    let assignees := match c.assignees with
      | some ls => ls.map (·.login)
      | none => ["Unassigned"]
    .ok { issueNumber, issueUrl, createdAtIST, issueTitle, priority,
          issueType, createdBy, appName, buildType, buildVersion,
          deviceType, status, assignees }

/-- istTime: currentTime.getTime() + 330 * 60 * 1000 -/
def istOf (now : Int) : Int := now + 330 * 60 * 1000

/-- adjustedTime: istTime.getTime() - 10 * 60 * 1000 -/
def adjustedOf (now : Int) : Int := istOf now - 10 * 60 * 1000

/-- One row of the issue_tracker table.  Columns other than the key are
nullable; engine-owned instants are kept as epoch milliseconds (the
source serializes them through Date / toISOString, which is injective on
instants, so equalities are preserved). -/
structure TrackedIssue where
  issue_number : IssueKey
  issue_title : Option String
  issue_url : Option String
  assignees : Option (List String)
  status : Option String
  priority : Option String
  issue_type : Option String
  created_by : Option String
  app_name : Option String
  build_type : Option String
  build_version : Option String
  device_type : Option String
  created_at : Option String
  updated_at : Option Int
  start_time : Option Int
  end_time : Option Int
deriving DecidableEq

/-- The updateData object: the base columns are always present, the four
conditional columns are Options, issue_number is added on insert only. -/
structure Payload where
  issue_title : String
  issue_url : String
  assignees : List String
  priority : String
  issue_type : String
  created_by : String
  app_name : String
  build_type : String
  build_version : String
  device_type : String
  created_at : String
  status : Option String
  updated_at : Option Int
  start_time : Option Int
  end_time : Option Int
deriving DecidableEq

/-- Lines 383-395: the unconditional part of updateData. -/
def basePayload (c : Canon) : Payload :=
  { issue_title := c.issueTitle
    issue_url := c.issueUrl
    assignees := c.assignees
    priority := c.priority
    issue_type := c.issueType
    created_by := c.createdBy
    app_name := c.appName
    build_type := c.buildType
    build_version := c.buildVersion
    device_type := c.deviceType
    created_at := c.createdAtIST
    status := none
    updated_at := none
    start_time := none
    end_time := none }

/-- !existingIssue || existingIssue.status !== status -/
def statusDiffers (existing : Option TrackedIssue) (st : String) : Bool :=
  match existing with
  | none => true
  | some e => e.status != some st

/-- !existingIssue || !existingIssue.start_time -/
def startUnset (existing : Option TrackedIssue) : Bool :=
  match existing with
  | none => true
  | some e => e.start_time.isNone

/-- !existingIssue || !existingIssue.end_time -/
def endUnset (existing : Option TrackedIssue) : Bool :=
  match existing with
  | none => true
  | some e => e.end_time.isNone

/-- Lines 383-408: updateData after the three conditional additions. -/
def computeUpdateData (existing : Option TrackedIssue) (c : Canon) (now : Int) : Payload :=
  let d1 := if statusDiffers existing c.status then
      { basePayload c with status := some c.status, updated_at := some (istOf now) }
    else basePayload c
  let d2 := if c.status == "In progress" && startUnset existing then
      { d1 with start_time := some (adjustedOf now) }
    else d1
  if c.status == "Done" && endUnset existing then
    { d2 with end_time := some (adjustedOf now) }
  else d2

/-- existing.status !== status ? set status and updated_at : keep — the
merge applied by supabase update: present payload columns overwrite, the
rest keep their stored value. -/
def overwrite {α : Type} (p e : Option α) : Option α :=
  match p with
  | some v => some v
  | none => e

/-- The row produced by update(updateData).eq(issue_number, k) on one
matching row. -/
def mergeRow (e : TrackedIssue) (p : Payload) : TrackedIssue :=
  { issue_number := e.issue_number
    issue_title := some p.issue_title
    issue_url := some p.issue_url
    assignees := some p.assignees
    status := overwrite p.status e.status
    priority := some p.priority
    issue_type := some p.issue_type
    created_by := some p.created_by
    app_name := some p.app_name
    build_type := some p.build_type
    build_version := some p.build_version
    device_type := some p.device_type
    created_at := some p.created_at
    updated_at := overwrite p.updated_at e.updated_at
    start_time := overwrite p.start_time e.start_time
    end_time := overwrite p.end_time e.end_time }

/-- The row produced by insert([updateData]) with issue_number added. -/
def mkInsertRow (k : IssueKey) (p : Payload) : TrackedIssue :=
  { issue_number := k
    issue_title := some p.issue_title
    issue_url := some p.issue_url
    assignees := some p.assignees
    status := p.status
    priority := some p.priority
    issue_type := some p.issue_type
    created_by := some p.created_by
    app_name := some p.app_name
    build_type := some p.build_type
    build_version := some p.build_version
    device_type := some p.device_type
    created_at := some p.created_at
    updated_at := p.updated_at
    start_time := p.start_time
    end_time := p.end_time }

/-- Outcome of select(...).eq(issue_number, k).single(): exactly one row
is found; zero rows is the PGRST116 not-found code (routed to the insert
path); anything else (here: several rows) is a non-PGRST116 error. -/
inductive ReadResult
  | found (e : TrackedIssue)
  | notFound
  | readErr
deriving DecidableEq

/-- select issue_number, start_time, end_time, updated_at, status from
issue_tracker where issue_number = k, single(). -/
def readSingle (rows : List TrackedIssue) (k : IssueKey) : ReadResult :=
  match rows.filter (fun r => r.issue_number == k) with
  | [r] => .found r
  | [] => .notFound
  | _ => .readErr

/-- Console output of the sync loop, one entry per store interaction. -/
inductive LogEntry
  | fetchErrLog
  | updateErrLog
  | updateOkLog
  | insertErrLog
  | insertOkLog
  | noItemsLog
deriving DecidableEq

/-- Whether the entry came from console.error. -/
def LogEntry.isErrorLog : LogEntry → Bool
  | .fetchErrLog => true
  | .updateErrLog => true
  | .insertErrLog => true
  | _ => false

/-- Injected failure behaviour of the destination store for one
iteration: a transient read failure (a fetchError with a code other than
PGRST116), and/or failure of the write issued in this iteration. -/
structure Fault where
  readFail : Bool
  writeFail : Bool
deriving DecidableEq

def Fault.ok : Fault := ⟨false, false⟩

/-- The observable state threaded through the loop: the destination
table, the console log, and the trace of keys the loop looked up. -/
structure SyncState where
  rows : List TrackedIssue
  log : List LogEntry
  reads : List IssueKey
deriving DecidableEq

/-- Lines 368-434: one iteration of the sync loop after projection. -/
def syncOne (c : Canon) (f : Fault) (now : Int) (s : SyncState) : SyncState :=
  let k := c.issueNumber
  let s1 : SyncState := { s with reads := s.reads ++ [k] }
  match (if f.readFail then ReadResult.readErr else readSingle s1.rows k) with
  | .readErr =>
    { s1 with log := s1.log ++ [.fetchErrLog] }
  | .found e =>
    let p := computeUpdateData (some e) c now
    if f.writeFail then
      { s1 with log := s1.log ++ [.updateErrLog] }
    else
      { s1 with
        rows := s1.rows.map (fun r => if r.issue_number == k then mergeRow r p else r)
        log := s1.log ++ [.updateOkLog] }
  | .notFound =>
    let p0 := computeUpdateData none c now
    let p := { p0 with updated_at := some (istOf now) }
    if f.writeFail then
      { s1 with log := s1.log ++ [.insertErrLog] }
    else
      { s1 with
        rows := s1.rows ++ [mkInsertRow k p]
        log := s1.log ++ [.insertOkLog] }

/-- One unit of work of the loop: the source item together with the
store behaviour and the wall clock for that iteration. -/
structure ItemJob where
  item : Item
  fault : Fault
  now : Int

/-- The for-loop of syncProjectItemsToSupabase: projection then store
interaction per item; a projection TypeError propagates and aborts the
remaining iterations (there is no try/catch inside the loop). -/
def syncRun : List ItemJob → SyncState → SyncState × Option JsError
  | [], s => (s, none)
  | j :: rest, s =>
    match projectItem j.item with
    | .error err => (s, some err)
    | .ok c => syncRun rest (syncOne c j.fault j.now s)

/-- Lines 345-436 entire: the empty-input guard, then the loop. -/
def syncProjectItemsToSupabase (items : List ItemJob) (s : SyncState) :
    SyncState × Option JsError :=
  if items.isEmpty then ({ s with log := s.log ++ [.noItemsLog] }, none)
  else syncRun items s

/-- pageInfo of one GraphQL page. -/
structure PageInfo where
  hasNextPage : Bool
  endCursor : Option String
deriving DecidableEq

/-- One page returned by the injected page-fetch capability. -/
structure Page where
  nodes : List Item
  pageInfo : PageInfo
deriving DecidableEq

/-- The while-loop of fetchAllProjectItems (lines 312-333) over the
sequence of pages the capability returns on successive calls: the first
page is always fetched (hasNextPage starts true); after each page the
loop continues exactly when its pageInfo.hasNextPage is true. -/
def fetchAllNodes : List Page → List Item
  | [] => []
  | p :: ps => p.nodes ++ (if p.pageInfo.hasNextPage then fetchAllNodes ps else [])

/-- Civil date from days since 1970-01-01 (proleptic Gregorian). -/
def civilFromDays (z0 : Nat) : Nat × Nat × Nat :=
  let z := z0 + 719468
  let era := z / 146097
  let doe := z % 146097
  let yoe := (doe - doe / 1460 + doe / 36524 - doe / 146096) / 365
  let y := yoe + era * 400
  let doy := doe - (365 * yoe + yoe / 4 - yoe / 100)
  let mp := (5 * doy + 2) / 153
  let d := doy - (153 * mp + 2) / 5 + 1
  let m := if mp < 10 then mp + 3 else mp - 9
  (if m ≤ 2 then y + 1 else y, m, d)

def pad2 (n : Nat) : String :=
  if n < 10 then "0" ++ toString n else toString n

def pad3 (n : Nat) : String :=
  if n < 10 then "00" ++ toString n
  else if n < 100 then "0" ++ toString n
  else toString n

def pad4 (n : Nat) : String :=
  if n < 10 then "000" ++ toString n
  else if n < 100 then "00" ++ toString n
  else if n < 1000 then "0" ++ toString n
  else toString n

/-- Date.prototype.toISOString for a nonnegative epoch in milliseconds:
the UTC calendar rendering, always suffixed with Z. -/
def toISOString (t : Nat) : String :=
  let days := t / 86400000
  let ms := t % 86400000
  let ymd := civilFromDays days
  let hh := ms / 3600000
  let mm := ms % 3600000 / 60000
  let ss := ms % 60000 / 1000
  let msr := ms % 1000
  pad4 ymd.1 ++ "-" ++ pad2 ymd.2.1 ++ "-" ++ pad2 ymd.2.2 ++ "T" ++
    pad2 hh ++ ":" ++ pad2 mm ++ ":" ++ pad2 ss ++ "." ++ pad3 msr ++ "Z"

/-- Lines 335-342: new Date(utc.getTime() + 330 * 60 * 1000).toISOString()
applied to the epoch of content.createdAt. -/
def toIstISOString (t : Nat) : String :=
  toISOString (t + 330 * 60 * 1000)

/-- The projectItemData object of the src/unnamed/part_000 variant. -/
structure ProjectItemData where
  issue_title : String
  issue_number : Option Nat
  issue_url : Option String
  assignees : String
  status : String
  priority : String
  issue_type : String
  created_by : String
  app_name : String
  build_type : String
  build_version : String
  device_type : String
  timeline : String
deriving DecidableEq

/-- part_000: content?.assignees?.nodes?.map(a => a.login).join(a comma)
with the Unassigned fallback for an absent chain or an empty join. -/
def assigneesJoined (item : Item) : String :=
  jsOrS ((item.content.bind (·.assignees)).map
    (fun ls => String.intercalate ", " (ls.map (·.login)))) "Unassigned"

/-- part_000 lines 96-116: the literal defaults before the field loop. -/
def initialProjectItemData (item : Item) : ProjectItemData :=
  { issue_title := jsOrS (item.content.map (·.title)) "No Title"
    issue_number := item.content.map (·.number)
    issue_url := item.content.map (·.url)
    assignees := assigneesJoined item
    status := "No Status"
    priority := "No Priority"
    issue_type := "No Issue Type"
    created_by := "Unknown"
    app_name := "N/A"
    build_type := "N/A"
    build_version := "N/A"
    device_type := "N/A"
    timeline := "N/A" }

/-- part_000 line 123: fieldValue.text || fieldValue.name ||
fieldValue.date || No Value. -/
def fieldValueResolved (fv : FieldValue) : String :=
  jsOrS fv.text (jsOrS fv.name (jsOrS fv.date "No Value"))

/-- String.prototype.toLowerCase, mapped over the characters. -/
def jsToLower (s : String) : String := ⟨s.data.map Char.toLower⟩

/-- part_000 lines 119-146: one step of the field-values loop.  The
field name is taken only when truthy, lowercased, and compared against
the lowercase keys of the field mapping; on a hit the slot is
overwritten with the resolved value. -/
def applyFieldValue (acc : ProjectItemData) (fv : FieldValue) : ProjectItemData :=
  match fv.fieldName with
  | none => acc
  | some nm =>
    if nm = "" then acc
    else
      let fieldName := jsToLower nm
      let value := fieldValueResolved fv
      if fieldName = "status" then { acc with status := value }
      else if fieldName = "priority" then { acc with priority := value }
      else if fieldName = "issue type" then { acc with issue_type := value }
      else if fieldName = "created by" then { acc with created_by := value }
      else if fieldName = "app name" then { acc with app_name := value }
      else if fieldName = "build type" then { acc with build_type := value }
      else if fieldName = "build version" then { acc with build_version := value }
      else if fieldName = "device type" then { acc with device_type := value }
      else if fieldName = "timeline" then { acc with timeline := value }
      else acc

/-- part_000: the whole projection of one item. -/
def projectItemPart000 (item : Item) : ProjectItemData :=
  item.fieldValues.foldl applyFieldValue (initialProjectItemData item)

/-- The canonical custom-field slots of the part_000 record. -/
inductive Slot
  | statusSlot
  | prioritySlot
  | issueTypeSlot
  | createdBySlot
  | appNameSlot
  | buildTypeSlot
  | buildVersionSlot
  | deviceTypeSlot
  | timelineSlot
deriving DecidableEq

/-- The lowercase field mapping key of each slot (part_000 lines 126-136). -/
def slotLabel : Slot → String
  | .statusSlot => "status"
  | .prioritySlot => "priority"
  | .issueTypeSlot => "issue type"
  | .createdBySlot => "created by"
  | .appNameSlot => "app name"
  | .buildTypeSlot => "build type"
  | .buildVersionSlot => "build version"
  | .deviceTypeSlot => "device type"
  | .timelineSlot => "timeline"

/-- Reading the slot out of the part_000 record. -/
def slotGet : Slot → ProjectItemData → String
  | .statusSlot, d => d.status
  | .prioritySlot, d => d.priority
  | .issueTypeSlot, d => d.issue_type
  | .createdBySlot, d => d.created_by
  | .appNameSlot, d => d.app_name
  | .buildTypeSlot, d => d.build_type
  | .buildVersionSlot, d => d.build_version
  | .deviceTypeSlot, d => d.device_type
  | .timelineSlot, d => d.timeline

/-- The row present for the key after one successful iteration: the
inserted row when no prior row existed, the merged row otherwise. -/
def rowAfter (c : Canon) (prev : Option TrackedIssue) (t : Int) : TrackedIssue :=
  match prev with
  | none =>
    mkInsertRow c.issueNumber
      { computeUpdateData none c t with updated_at := some (istOf t) }
  | some e => mergeRow e (computeUpdateData (some e) c t)

/-! Concrete inputs used by counterexamples and witnesses. -/

def emptyState : SyncState := { rows := [], log := [], reads := [] }

/-- A SourceItem whose content is absent. -/
def noContentItem : Item :=
  { id := "item-1", fieldValues := [], content := none }

/-- A fully populated canonical record with the in-progress status. -/
def canonDemo : Canon :=
  { issueNumber := .num 7
    issueUrl := "https://example.test/7"
    createdAtIST := "2024-01-01T05:30:00.000Z"
    issueTitle := "Crash on login"
    priority := "P1"
    issueType := "Bug"
    createdBy := "alice"
    appName := "Rider"
    buildType := "Debug"
    buildVersion := "1.2.3"
    deviceType := "Android"
    status := "In progress"
    assignees := ["alice"] }

/-- A stored row whose status matches canonDemo and whose lifecycle
instants are both set. -/
def rowDemo : TrackedIssue :=
  { issue_number := .num 7
    issue_title := some "Crash on login"
    issue_url := some "https://example.test/7"
    assignees := some ["alice"]
    status := some "In progress"
    priority := some "P1"
    issue_type := some "Bug"
    created_by := some "alice"
    app_name := some "Rider"
    build_type := some "Debug"
    build_version := some "1.2.3"
    device_type := some "Android"
    created_at := some "2024-01-01T05:30:00.000Z"
    updated_at := some 5
    start_time := some 3
    end_time := some 4 }

/-- An item with content and a properly cased Status single-select field. -/
def contentItemDemo : Item :=
  { id := "item-7"
    fieldValues := [{ fieldName := some "Status", text := none,
                      name := some "In progress", date := none }]
    content := some { title := "Crash on login"
                      number := 7
                      url := "https://example.test/7"
                      createdAtIST := some "2024-01-01T05:30:00.000Z"
                      assignees := some [⟨"alice"⟩] } }

/-- What projectItem yields on contentItemDemo. -/
def canonProj : Canon :=
  { issueNumber := .num 7
    issueUrl := "https://example.test/7"
    createdAtIST := "2024-01-01T05:30:00.000Z"
    issueTitle := "No Title"
    priority := "No Priority"
    issueType := "No Issue Type"
    createdBy := "Unknown"
    appName := "N/A"
    buildType := "N/A"
    buildVersion := "N/A"
    deviceType := "N/A"
    status := "In progress"
    assignees := ["alice"] }

/-- An item carrying the status value under a lowercased field name. -/
def lowercaseStatusItem : Item :=
  { id := "item-9"
    fieldValues := [{ fieldName := some "status", text := none,
                      name := some "Done", date := none }]
    content := some { title := "t", number := 9, url := "https://example.test/9",
                      createdAtIST := none, assignees := some [] } }

def pageItem (n : Nat) : Item :=
  { id := toString n, fieldValues := [], content := none }

def demoPage1 : Page :=
  { nodes := (List.range 100).map pageItem
    pageInfo := { hasNextPage := true, endCursor := some "cursor-1" } }

def demoPage2 : Page :=
  { nodes := (List.range 100).map (fun n => pageItem (100 + n))
    pageInfo := { hasNextPage := true, endCursor := some "cursor-2" } }

def demoPage3 : Page :=
  { nodes := (List.range 37).map (fun n => pageItem (200 + n))
    pageInfo := { hasNextPage := false, endCursor := none } }

/-! Helper lemmas shared by the claim theorems. -/

/-- Normal form of computeUpdateData: base columns plus four independent
conditionals. -/
theorem computeUpdateData_eq (existing : Option TrackedIssue) (c : Canon) (t : Int) :
    computeUpdateData existing c t =
      { basePayload c with
        status := if statusDiffers existing c.status then some c.status else none
        updated_at := if statusDiffers existing c.status then some (istOf t) else none
        start_time := if c.status == "In progress" && startUnset existing
          then some (adjustedOf t) else none
        end_time := if c.status == "Done" && endUnset existing
          then some (adjustedOf t) else none } := by
  unfold computeUpdateData
  split_ifs <;> rfl

/-- Mapping a function that fixes every element it touches is the
identity. -/
theorem map_fix_of_matches {α : Type} (p : α → Bool) (f : α → α) :
    ∀ l : List α, (∀ r ∈ l, p r = true → f r = r) →
      l.map (fun r => if p r then f r else r) = l := by
  intro l
  induction l with
  | nil => intro _; rfl
  | cons a l ih =>
    intro h
    have ha := h a (List.mem_cons_self a l)
    have hl := ih (fun r hr => h r (List.mem_cons_of_mem a hr))
    by_cases hpa : p a = true
    · simp [hpa, ha hpa, hl]
    · simp [Bool.eq_false_iff.mpr hpa, hl]

/-- When the filtered sublist is a singleton, every matching element is
that singleton. -/
theorem filter_singleton_matches {α : Type} (p : α → Bool) (x : α) :
    ∀ l : List α, l.filter p = [x] → ∀ r ∈ l, p r = true → r = x := by
  intro l
  induction l with
  | nil => intro _ r hr; cases hr
  | cons a l ih =>
    intro h r hr hpr
    by_cases hpa : p a = true
    · rw [List.filter_cons_of_pos hpa] at h
      have hax : a = x := (List.cons.injEq _ _ _ _).mp h |>.1
      have hnil : l.filter p = [] := (List.cons.injEq _ _ _ _).mp h |>.2
      rcases List.mem_cons.mp hr with heq | hr2
      · rw [heq, hax]
      · exfalso
        have hmem : r ∈ l.filter p := List.mem_filter.mpr ⟨hr2, hpr⟩
        rw [hnil] at hmem
        cases hmem
    · rw [List.filter_cons_of_neg (by simpa using hpa)] at h
      rcases List.mem_cons.mp hr with heq | hr2
      · rw [heq] at hpr; exact absurd hpr hpa
      · exact ih h r hr2 hpr

/-- filter commutes with a map that preserves the predicate. -/
theorem filter_map_comm {α : Type} (p : α → Bool) (g : α → α)
    (hg : ∀ r, p (g r) = p r) :
    ∀ l : List α, (l.map g).filter p = (l.filter p).map g := by
  intro l
  induction l with
  | nil => rfl
  | cons a l ih =>
    by_cases hpa : p a = true
    · rw [List.map_cons, List.filter_cons_of_pos (by rw [hg]; exact hpa),
        List.filter_cons_of_pos hpa, List.map_cons, ih]
    · rw [List.map_cons, List.filter_cons_of_neg (by rw [hg]; simpa using hpa),
        List.filter_cons_of_neg (by simpa using hpa), ih]

theorem rowAfter_status (c : Canon) (prev : Option TrackedIssue) (t : Int) :
    (rowAfter c prev t).status = some c.status := by
  cases prev with
  | none => simp [rowAfter, mkInsertRow, computeUpdateData_eq, statusDiffers]
  | some e =>
    rw [rowAfter, computeUpdateData_eq]
    by_cases h : e.status = some c.status
    · simp [mergeRow, overwrite, statusDiffers, h]
    · simp [mergeRow, overwrite, statusDiffers, bne_iff_ne, h]

theorem rowAfter_start (c : Canon) (prev : Option TrackedIssue) (t : Int)
    (h : c.status = "In progress") :
    (rowAfter c prev t).start_time.isSome = true := by
  cases prev with
  | none => simp [rowAfter, mkInsertRow, computeUpdateData_eq, startUnset, h]
  | some e =>
    rw [rowAfter, computeUpdateData_eq]
    cases hst : e.start_time with
    | none => simp [mergeRow, overwrite, startUnset, hst, h]
    | some v => simp [mergeRow, overwrite, startUnset, hst, h]

theorem rowAfter_end (c : Canon) (prev : Option TrackedIssue) (t : Int)
    (h : c.status = "Done") :
    (rowAfter c prev t).end_time.isSome = true := by
  cases prev with
  | none => simp [rowAfter, mkInsertRow, computeUpdateData_eq, endUnset, h]
  | some e =>
    rw [rowAfter, computeUpdateData_eq]
    cases hen : e.end_time with
    | none => simp [mergeRow, overwrite, endUnset, hen, h]
    | some v => simp [mergeRow, overwrite, endUnset, hen, h]

theorem rowAfter_key (c : Canon) (prev : Option TrackedIssue) (t : Int) :
    (rowAfter c prev t).issue_number =
      (match prev with | none => c.issueNumber | some e => e.issue_number) := by
  cases prev <;> rfl

theorem rowAfter_base (c : Canon) (prev : Option TrackedIssue) (t : Int) :
    (rowAfter c prev t).issue_title = some c.issueTitle
    ∧ (rowAfter c prev t).issue_url = some c.issueUrl
    ∧ (rowAfter c prev t).assignees = some c.assignees
    ∧ (rowAfter c prev t).priority = some c.priority
    ∧ (rowAfter c prev t).issue_type = some c.issueType
    ∧ (rowAfter c prev t).created_by = some c.createdBy
    ∧ (rowAfter c prev t).app_name = some c.appName
    ∧ (rowAfter c prev t).build_type = some c.buildType
    ∧ (rowAfter c prev t).build_version = some c.buildVersion
    ∧ (rowAfter c prev t).device_type = some c.deviceType
    ∧ (rowAfter c prev t).created_at = some c.createdAtIST := by
  cases prev <;>
    simp [rowAfter, mkInsertRow, mergeRow, computeUpdateData_eq, basePayload]

/-- A row whose status matches the incoming one and whose set lifecycle
instants cover the incoming status produces the bare base payload. -/
theorem computeUpdateData_self (c : Canon) (R : TrackedIssue) (t : Int)
    (hstat : R.status = some c.status)
    (hstart : c.status = "In progress" → R.start_time.isSome = true)
    (hend : c.status = "Done" → R.end_time.isSome = true) :
    computeUpdateData (some R) c t = basePayload c := by
  rw [computeUpdateData_eq]
  have h1 : statusDiffers (some R) c.status = false := by
    simp [statusDiffers, hstat]
  have h2 : (c.status == "In progress" && startUnset (some R)) = false := by
    by_cases hc : c.status = "In progress"
    · have hs := hstart hc
      cases hst : R.start_time with
      | none => rw [hst] at hs; simp at hs
      | some v => simp [startUnset, hst]
    · simp [hc]
  have h3 : (c.status == "Done" && endUnset (some R)) = false := by
    by_cases hc : c.status = "Done"
    · have hs := hend hc
      cases hen : R.end_time with
      | none => rw [hen] at hs; simp at hs
      | some v => simp [endUnset, hen]
    · simp [hc]
  simp [h1, h2, h3]
  rfl

/-- Merging the bare base payload into a row whose base columns already
hold the canonical values is the identity. -/
theorem mergeRow_basePayload (c : Canon) (R : TrackedIssue)
    (hb : R.issue_title = some c.issueTitle
      ∧ R.issue_url = some c.issueUrl
      ∧ R.assignees = some c.assignees
      ∧ R.priority = some c.priority
      ∧ R.issue_type = some c.issueType
      ∧ R.created_by = some c.createdBy
      ∧ R.app_name = some c.appName
      ∧ R.build_type = some c.buildType
      ∧ R.build_version = some c.buildVersion
      ∧ R.device_type = some c.deviceType
      ∧ R.created_at = some c.createdAtIST) :
    mergeRow R (basePayload c) = R := by
  obtain ⟨h1, h2, h3, h4, h5, h6, h7, h8, h9, h10, h11⟩ := hb
  cases R
  simp_all [mergeRow, basePayload, overwrite]

/-- syncOne on a successful read that found a row, with the write
succeeding. -/
theorem syncOne_found_eq (c : Canon) (f : Fault) (t : Int) (s : SyncState)
    (e : TrackedIssue) (hf : f.readFail = false) (hw : f.writeFail = false)
    (h : readSingle s.rows c.issueNumber = ReadResult.found e) :
    syncOne c f t s =
      { rows := s.rows.map (fun r => if r.issue_number == c.issueNumber
          then mergeRow r (computeUpdateData (some e) c t) else r)
        log := s.log ++ [LogEntry.updateOkLog]
        reads := s.reads ++ [c.issueNumber] } := by
  unfold syncOne
  rw [hf]
  simp only [Bool.false_eq_true, if_false]
  have hrows : ({ s with reads := s.reads ++ [c.issueNumber] } : SyncState).rows = s.rows := rfl
  rw [hrows, h, hw]
  rfl

/-- syncOne on a not-found read, with the insert succeeding. -/
theorem syncOne_notFound_eq (c : Canon) (f : Fault) (t : Int) (s : SyncState)
    (hf : f.readFail = false) (hw : f.writeFail = false)
    (h : readSingle s.rows c.issueNumber = ReadResult.notFound) :
    syncOne c f t s =
      { rows := s.rows ++ [rowAfter c none t]
        log := s.log ++ [LogEntry.insertOkLog]
        reads := s.reads ++ [c.issueNumber] } := by
  unfold syncOne
  rw [hf]
  simp only [Bool.false_eq_true, if_false]
  have hrows : ({ s with reads := s.reads ++ [c.issueNumber] } : SyncState).rows = s.rows := rfl
  rw [hrows, h, hw]
  rfl

/-- The loop processes a prefix whose projections all succeed, then
continues with the suffix from the reached state: it never aborts on
store outcomes. -/
theorem syncRun_append (xs zs : List ItemJob) (s : SyncState)
    (hx : ∀ j ∈ xs, ∃ cj, projectItem j.item = Except.ok cj) :
    syncRun (xs ++ zs) s = syncRun zs (syncRun xs s).1 := by
  induction xs generalizing s with
  | nil => rfl
  | cons j xs ih =>
    obtain ⟨cj, hcj⟩ := hx j (List.mem_cons_self j xs)
    have hx2 : ∀ q ∈ xs, ∃ cq, projectItem q.item = Except.ok cq :=
      fun q hq => hx q (List.mem_cons_of_mem j hq)
    rw [List.cons_append]
    show (match projectItem j.item with
      | .error err => (s, some err)
      | .ok c => syncRun (xs ++ zs) (syncOne c j.fault j.now s)) = _
    rw [hcj]
    show syncRun (xs ++ zs) (syncOne cj j.fault j.now s) = _
    rw [ih _ hx2]
    have h2 : (syncRun (j :: xs) s).1 = (syncRun xs (syncOne cj j.fault j.now s)).1 := by
      show (match projectItem j.item with
        | .error err => (s, some err)
        | .ok c => syncRun xs (syncOne c j.fault j.now s)).1 = _
      rw [hcj]
    rw [h2]

/-- A store-level read or write failure in one iteration leaves the
table untouched and appends exactly one error line. -/
theorem syncOne_fault_skips (c : Canon) (f : Fault) (t : Int) (s : SyncState)
    (hf : f.readFail = true ∨ f.writeFail = true) :
    (syncOne c f t s).rows = s.rows
    ∧ (∃ entry, (syncOne c f t s).log = s.log ++ [entry]
        ∧ LogEntry.isErrorLog entry = true) := by
  obtain ⟨rf, wf⟩ := f
  cases rf with
  | true =>
    exact ⟨rfl, ⟨.fetchErrLog, rfl, rfl⟩⟩
  | false =>
    cases wf with
    | false => simp at hf
    | true =>
      cases hread : readSingle s.rows c.issueNumber with
      | found e =>
        refine ⟨?_, ⟨.updateErrLog, ?_, rfl⟩⟩ <;> simp [syncOne, hread]
      | notFound =>
        refine ⟨?_, ⟨.insertErrLog, ?_, rfl⟩⟩ <;> simp [syncOne, hread]
      | readErr =>
        refine ⟨?_, ⟨.fetchErrLog, ?_, rfl⟩⟩ <;> simp [syncOne, hread]

/-- After one successful iteration from a store holding at most one row
for the key, the key holds exactly one row: rowAfter of the prior row. -/
theorem syncOne_ok_filter (c : Canon) (s : SyncState) (t : Int)
    (h : (s.rows.filter (fun r => r.issue_number == c.issueNumber)).length ≤ 1) :
    ∃ prev : Option TrackedIssue,
      (syncOne c Fault.ok t s).rows.filter (fun r => r.issue_number == c.issueNumber)
        = [rowAfter c prev t] := by
  rcases hfil : s.rows.filter (fun r => r.issue_number == c.issueNumber) with _ | ⟨e, rest⟩
  · have hread : readSingle s.rows c.issueNumber = ReadResult.notFound := by
      unfold readSingle
      rw [hfil]
    refine ⟨none, ?_⟩
    rw [syncOne_notFound_eq c Fault.ok t s rfl rfl hread]
    show (s.rows ++ [rowAfter c none t]).filter _ = _
    rw [List.filter_append, hfil]
    have hk : (rowAfter c none t).issue_number = c.issueNumber := rowAfter_key c none t
    simp [hk]
  · rcases rest with _ | ⟨e2, rest2⟩
    · have hread : readSingle s.rows c.issueNumber = ReadResult.found e := by
        unfold readSingle
        rw [hfil]
      have hpe : e.issue_number = c.issueNumber := by
        have hmem : e ∈ s.rows.filter (fun r => r.issue_number == c.issueNumber) := by
          rw [hfil]
          exact List.mem_cons_self e []
        simpa using (List.mem_filter.mp hmem).2
      refine ⟨some e, ?_⟩
      rw [syncOne_found_eq c Fault.ok t s e rfl rfl hread]
      show (s.rows.map _).filter _ = _
      rw [filter_map_comm _ _ ?_ s.rows, hfil]
      · simp [rowAfter, hpe]
      · intro r
        dsimp only
        split <;> rfl
    · rw [hfil] at h
      simp at h

/-! Claim theorems. -/

/-- C1: running the reconciler twice with the same canonical record
leaves the destination table after the second run identical to the table
after the first run, and the second run's update payload carries no
status, updated_at, start_time or end_time, the stored status being
equal to the incoming one. -/
theorem c1_reconciler_idempotent (c : Canon) (s : SyncState) (t1 t2 : Int)
    (h : (s.rows.filter (fun r => r.issue_number == c.issueNumber)).length ≤ 1) :
    (syncOne c Fault.ok t2 (syncOne c Fault.ok t1 s)).rows = (syncOne c Fault.ok t1 s).rows
    ∧ (∀ e, readSingle (syncOne c Fault.ok t1 s).rows c.issueNumber = ReadResult.found e →
        (computeUpdateData (some e) c t2).status = none
        ∧ (computeUpdateData (some e) c t2).updated_at = none
        ∧ (computeUpdateData (some e) c t2).start_time = none
        ∧ (computeUpdateData (some e) c t2).end_time = none) := by
  obtain ⟨prev, hfR⟩ := syncOne_ok_filter c s t1 h
  set s1 := syncOne c Fault.ok t1 s with hs1
  set R := rowAfter c prev t1 with hR
  have hread2 : readSingle s1.rows c.issueNumber = ReadResult.found R := by
    unfold readSingle
    rw [hfR]
  have hp2 : computeUpdateData (some R) c t2 = basePayload c :=
    computeUpdateData_self c R t2 (by rw [hR]; exact rowAfter_status c prev t1)
      (fun hip => by rw [hR]; exact rowAfter_start c prev t1 hip)
      (fun hd => by rw [hR]; exact rowAfter_end c prev t1 hd)
  constructor
  · rw [syncOne_found_eq c Fault.ok t2 s1 R rfl rfl hread2]
    show s1.rows.map _ = s1.rows
    rw [hp2]
    exact map_fix_of_matches (fun r => r.issue_number == c.issueNumber)
      (fun r => mergeRow r (basePayload c)) s1.rows
      (fun r hr hpr => by
        rw [filter_singleton_matches _ R s1.rows hfR r hr hpr]
        exact mergeRow_basePayload c R (by rw [hR]; exact rowAfter_base c prev t1))
  · intro e he
    rw [hread2] at he
    injection he with heq
    rw [← heq, hp2]
    exact ⟨rfl, rfl, rfl, rfl⟩

/-- C1 witness at a concrete record and the empty store. -/
theorem c1_witness :
    (syncOne canonDemo Fault.ok 2000 (syncOne canonDemo Fault.ok 1000 emptyState)).rows
      = (syncOne canonDemo Fault.ok 1000 emptyState).rows
    ∧ (∀ e, readSingle (syncOne canonDemo Fault.ok 1000 emptyState).rows canonDemo.issueNumber
        = ReadResult.found e →
        (computeUpdateData (some e) canonDemo 2000).status = none
        ∧ (computeUpdateData (some e) canonDemo 2000).updated_at = none
        ∧ (computeUpdateData (some e) canonDemo 2000).start_time = none
        ∧ (computeUpdateData (some e) canonDemo 2000).end_time = none) :=
  c1_reconciler_idempotent canonDemo emptyState 1000 2000 (by decide)

/-- C2: when the stored row already carries start_time (resp. end_time),
the computed update payload omits it and the updated row keeps the
stored value, whatever the incoming status is. -/
theorem c2_lifecycle_timestamps_monotonic (e : TrackedIssue) (c : Canon) (t : Int) :
    (e.start_time.isSome = true →
      (computeUpdateData (some e) c t).start_time = none
      ∧ (mergeRow e (computeUpdateData (some e) c t)).start_time = e.start_time)
    ∧ (e.end_time.isSome = true →
      (computeUpdateData (some e) c t).end_time = none
      ∧ (mergeRow e (computeUpdateData (some e) c t)).end_time = e.end_time) := by
  constructor
  · intro hs
    have hcond : (c.status == "In progress" && startUnset (some e)) = false := by
      cases hst : e.start_time with
      | none => rw [hst] at hs; simp at hs
      | some v => simp [startUnset, hst]
    have h1 : (computeUpdateData (some e) c t).start_time = none := by
      rw [computeUpdateData_eq]
      simp [hcond]
    exact ⟨h1, by simp [mergeRow, overwrite, h1]⟩
  · intro hs
    have hcond : (c.status == "Done" && endUnset (some e)) = false := by
      cases hen : e.end_time with
      | none => rw [hen] at hs; simp at hs
      | some v => simp [endUnset, hen]
    have h1 : (computeUpdateData (some e) c t).end_time = none := by
      rw [computeUpdateData_eq]
      simp [hcond]
    exact ⟨h1, by simp [mergeRow, overwrite, h1]⟩

/-- C2 witness at a row with both instants set. -/
theorem c2_witness :
    ((computeUpdateData (some rowDemo) canonDemo 0).start_time = none
      ∧ (mergeRow rowDemo (computeUpdateData (some rowDemo) canonDemo 0)).start_time
          = rowDemo.start_time)
    ∧ ((computeUpdateData (some rowDemo) canonDemo 0).end_time = none
      ∧ (mergeRow rowDemo (computeUpdateData (some rowDemo) canonDemo 0)).end_time
          = rowDemo.end_time) :=
  ⟨(c2_lifecycle_timestamps_monotonic rowDemo canonDemo 0).1 (by decide),
   (c2_lifecycle_timestamps_monotonic rowDemo canonDemo 0).2 (by decide)⟩

/-- C3: for an existing row the payload carries status and updated_at
exactly when the stored status differs from the incoming one, and an
unchanged status leaves the stored updated_at untouched. -/
theorem c3_status_gates_updated_at (e : TrackedIssue) (c : Canon) (t : Int) :
    ((computeUpdateData (some e) c t).status =
      if e.status = some c.status then none else some c.status)
    ∧ ((computeUpdateData (some e) c t).updated_at =
      if e.status = some c.status then none else some (istOf t))
    ∧ (e.status = some c.status →
      (mergeRow e (computeUpdateData (some e) c t)).updated_at = e.updated_at) := by
  by_cases h : e.status = some c.status
  · have hsd : statusDiffers (some e) c.status = false := by
      simp [statusDiffers, h]
    have hu : (computeUpdateData (some e) c t).updated_at = none := by
      rw [computeUpdateData_eq]
      simp [hsd]
    refine ⟨?_, ?_, fun _ => ?_⟩
    · rw [computeUpdateData_eq]
      simp [hsd, h]
    · rw [hu]
      simp [h]
    · simp [mergeRow, overwrite, hu]
  · have hsd : statusDiffers (some e) c.status = true := by
      simp [statusDiffers, bne_iff_ne, h]
    refine ⟨?_, ?_, fun hd => absurd hd h⟩
    · rw [computeUpdateData_eq]
      simp [hsd, h]
    · rw [computeUpdateData_eq]
      simp [hsd, h]

/-- C3 witness at a row whose stored status equals the incoming one. -/
theorem c3_witness :
    (computeUpdateData (some rowDemo) canonDemo 0).status = none
    ∧ (computeUpdateData (some rowDemo) canonDemo 0).updated_at = none
    ∧ (mergeRow rowDemo (computeUpdateData (some rowDemo) canonDemo 0)).updated_at
        = rowDemo.updated_at := by
  have h := c3_status_gates_updated_at rowDemo canonDemo 0
  exact ⟨h.1.trans (by decide), h.2.1.trans (by decide), h.2.2 (by decide)⟩

/-- C4: the spec requires the field projector to be total over every
SourceItem shape, filling defaults for absent data; the code is not
total: an item with absent content throws a TypeError at the unguarded
item.content.assignees access, although the lines directly above it
default the key and the url for exactly this shape. -/
theorem c4_projector_throws_on_absent_content :
    projectItem noContentItem = Except.error JsError.typeError := rfl

/-- C5 counterexample: the projector of sync-project-items.js compares
field names with strict equality, so a single-select field whose name
differs from the Status label only in case does not populate the status
slot; the default is used instead. -/
theorem c5_counterexample :
    (projectItem lowercaseStatusItem).map Canon.status = Except.ok "No Status"
    ∧ "No Status" ≠ "Done" := ⟨rfl, by decide⟩

/-- C5 amended: only the part_000 variant matches field labels ignoring
case: any field value whose name lowercases to a slot's mapping key
populates that slot with the resolved value. -/
theorem c5_part000_case_insensitive (sl : Slot) (acc : ProjectItemData) (nm v : String)
    (hn : jsToLower nm = slotLabel sl) (hv : v ≠ "") :
    slotGet sl (applyFieldValue acc
      { fieldName := some nm, text := none, name := some v, date := none }) = v := by
  have hempty : jsToLower "" = "" := rfl
  have hnm : ¬ (nm = "") := by
    intro h0
    rw [h0, hempty] at hn
    cases sl <;> exact absurd hn (by decide)
  cases sl <;>
    simp [applyFieldValue, hnm, hn, slotLabel, slotGet, fieldValueResolved, jsOrS, hv]

/-- C5 witness: an uppercased STATUS field still lands in the status
slot of the part_000 record. -/
theorem c5_witness :
    slotGet Slot.statusSlot (applyFieldValue (initialProjectItemData noContentItem)
      { fieldName := some "STATUS", text := none, name := some "Done", date := none })
      = "Done" :=
  c5_part000_case_insensitive Slot.statusSlot (initialProjectItemData noContentItem)
    "STATUS" "Done" (by decide) (by decide)

/-- C6 counterexample: the normalizer renders the shifted epoch with
toISOString, so its output is UTC-tagged: for the instant
2024-01-01T00:00:00Z it yields 2024-01-01T05:30:00.000Z, which is not
the claimed +05:30-tagged string and is not the rendering of the input
instant. -/
theorem c6_counterexample :
    toIstISOString 1704067200000 = "2024-01-01T05:30:00.000Z"
    ∧ toISOString 1704067200000 = "2024-01-01T00:00:00.000Z"
    ∧ toIstISOString 1704067200000 ≠ toISOString 1704067200000
    ∧ toIstISOString 1704067200000 ≠ "2024-01-01T05:30:00+05:30" := by
  exact ⟨by decide, by decide, by decide, by decide⟩

/-- C6 amended: the normalizer adds 330 minutes to the epoch and renders
the sum as a UTC instant: the output wall-clock fields read as IST, but
the produced value denotes an instant 330 minutes after the input. -/
theorem c6_amended_shifted_instant :
    toIstISOString 1704067200000 = toISOString (1704067200000 + 330 * 60 * 1000)
    ∧ toISOString 1704087000000 = "2024-01-01T05:30:00.000Z"
    ∧ (1704067200000 + 330 * 60 * 1000 : Nat) = 1704087000000 :=
  ⟨rfl, by decide, by decide⟩

/-- C7: when every page but the last reports a next page and the last
does not, the paginator returns exactly the concatenation of the pages'
item lists, in arrival order. -/
theorem c7_paginator_concat (ps : List Page) (last : Page)
    (hps : ∀ p ∈ ps, p.pageInfo.hasNextPage = true)
    (hlast : last.pageInfo.hasNextPage = false) :
    fetchAllNodes (ps ++ [last]) = ((ps ++ [last]).map Page.nodes).flatten := by
  induction ps with
  | nil => simp [fetchAllNodes, hlast]
  | cons p ps ih =>
    have hp := hps p (List.mem_cons_self p ps)
    have ihh := ih (fun q hq => hps q (List.mem_cons_of_mem p hq))
    simp [fetchAllNodes, hp]
    simpa using ihh

set_option maxRecDepth 40000 in
/-- C7 witness: three pages of sizes 100, 100 and 37 yield exactly the
237 items in original order. -/
theorem c7_witness :
    fetchAllNodes [demoPage1, demoPage2, demoPage3] =
      (([demoPage1, demoPage2, demoPage3]).map Page.nodes).flatten
    ∧ (([demoPage1, demoPage2, demoPage3]).map Page.nodes).flatten
        = (List.range 237).map pageItem
    ∧ ((List.range 237).map pageItem).length = 237 := by
  refine ⟨c7_paginator_concat [demoPage1, demoPage2] demoPage3 ?_ rfl, rfl, rfl⟩
  intro p hp
  rcases List.mem_cons.mp hp with h | h
  · rw [h]; rfl
  · rcases List.mem_cons.mp h with h2 | h2
    · rw [h2]; rfl
    · cases h2

/-- C8: a not-found lookup takes the insert path: the full payload with
the natural key and the status is appended as a new row, the logged line
is the success line, and the record is not skipped. -/
theorem c8_not_found_inserts (c : Canon) (s : SyncState) (t : Int)
    (h : readSingle s.rows c.issueNumber = ReadResult.notFound) :
    syncOne c Fault.ok t s =
      { rows := s.rows ++ [rowAfter c none t]
        log := s.log ++ [LogEntry.insertOkLog]
        reads := s.reads ++ [c.issueNumber] }
    ∧ (rowAfter c none t).issue_number = c.issueNumber
    ∧ (rowAfter c none t).status = some c.status
    ∧ (rowAfter c none t).issue_title = some c.issueTitle
    ∧ (rowAfter c none t).created_at = some c.createdAtIST
    ∧ LogEntry.isErrorLog LogEntry.insertOkLog = false := by
  refine ⟨syncOne_notFound_eq c Fault.ok t s rfl rfl h, rfl,
    rowAfter_status c none t, (rowAfter_base c none t).1, ?_, rfl⟩
  exact (rowAfter_base c none t).2.2.2.2.2.2.2.2.2.2

/-- C8 witness at the empty store. -/
theorem c8_witness :
    syncOne canonDemo Fault.ok 0 emptyState =
      { rows := [rowAfter canonDemo none 0]
        log := [LogEntry.insertOkLog]
        reads := [canonDemo.issueNumber] }
    ∧ (rowAfter canonDemo none 0).issue_number = canonDemo.issueNumber
    ∧ (rowAfter canonDemo none 0).status = some canonDemo.status
    ∧ (rowAfter canonDemo none 0).issue_title = some canonDemo.issueTitle
    ∧ (rowAfter canonDemo none 0).created_at = some canonDemo.createdAtIST
    ∧ LogEntry.isErrorLog LogEntry.insertOkLog = false :=
  c8_not_found_inserts canonDemo emptyState 0 rfl

/-- C9: a store-level read or write failure for one record is logged as
one error line, leaves the table unchanged, and the loop continues with
the remaining records from that same state: no abort and no rollback of
the prefix's writes. -/
theorem c9_per_record_error_isolation (xs ys : List ItemJob) (j : ItemJob) (c : Canon)
    (s : SyncState)
    (hx : ∀ q ∈ xs, ∃ cq, projectItem q.item = Except.ok cq)
    (hc : projectItem j.item = Except.ok c)
    (hf : j.fault.readFail = true ∨ j.fault.writeFail = true) :
    syncRun (xs ++ j :: ys) s = syncRun ys (syncOne c j.fault j.now (syncRun xs s).1)
    ∧ (syncOne c j.fault j.now (syncRun xs s).1).rows = (syncRun xs s).1.rows
    ∧ (∃ entry, (syncOne c j.fault j.now (syncRun xs s).1).log
        = (syncRun xs s).1.log ++ [entry] ∧ LogEntry.isErrorLog entry = true) := by
  have h2 := syncOne_fault_skips c j.fault j.now (syncRun xs s).1 hf
  refine ⟨?_, h2.1, h2.2⟩
  rw [syncRun_append xs (j :: ys) s hx]
  show (match projectItem j.item with
    | .error err => ((syncRun xs s).1, some err)
    | .ok cj => syncRun ys (syncOne cj j.fault j.now (syncRun xs s).1)) = _
  rw [hc]

/-- C9 witness: a single job whose read fails, from the empty store. -/
theorem c9_witness :
    syncRun [{ item := contentItemDemo, fault := ⟨true, false⟩, now := 0 }] emptyState
      = (syncOne canonProj ⟨true, false⟩ 0 emptyState, none)
    ∧ (syncOne canonProj ⟨true, false⟩ 0 emptyState).rows = emptyState.rows
    ∧ (∃ entry, (syncOne canonProj ⟨true, false⟩ 0 emptyState).log
        = emptyState.log ++ [entry] ∧ LogEntry.isErrorLog entry = true) :=
  c9_per_record_error_isolation [] []
    { item := contentItemDemo, fault := ⟨true, false⟩, now := 0 } canonProj emptyState
    (fun q hq => absurd hq (List.not_mem_nil q)) rfl (Or.inl rfl)

/-- C10 counterexample: one content-less item against the empty store:
the run performs no lookup at all, writes nothing, and dies with the
TypeError, so nothing is read or written under the key N/A. -/
theorem c10_counterexample :
    syncProjectItemsToSupabase [{ item := noContentItem, fault := Fault.ok, now := 0 }]
      emptyState = (emptyState, some JsError.typeError) := rfl

/-- C10 amended: for an item with absent content the loop computes the
string N/A as the issue number, but throws the TypeError at the
assignees access before the store lookup, so the state is returned
unchanged and the remaining items are not processed. -/
theorem c10_amended_contentless_throws (item : Item) (h : item.content = none)
    (f : Fault) (t : Int) (rest : List ItemJob) (s : SyncState) :
    issueNumberOf item = IssueKey.str "N/A"
    ∧ projectItem item = Except.error JsError.typeError
    ∧ syncRun ({ item := item, fault := f, now := t } :: rest) s
        = (s, some JsError.typeError) := by
  have hp : projectItem item = Except.error JsError.typeError := by
    unfold projectItem
    rw [h]
  refine ⟨?_, hp, ?_⟩
  · unfold issueNumberOf
    rw [h]
  · show (match projectItem item with
      | .error err => (s, some err)
      | .ok c => syncRun rest (syncOne c f t s)) = _
    rw [hp]

/-- C10 amended witness at the concrete content-less item. -/
theorem c10_amended_witness :
    issueNumberOf noContentItem = IssueKey.str "N/A"
    ∧ projectItem noContentItem = Except.error JsError.typeError
    ∧ syncRun [{ item := noContentItem, fault := Fault.ok, now := 0 }] emptyState
        = (emptyState, some JsError.typeError) :=
  c10_amended_contentless_throws noContentItem rfl Fault.ok 0 [] emptyState

end IssueTracker
